import Mathlib

/-!
Verification of the mautrix end-to-end-encryption session-management core.

The development shallowly embeds the three source modules:

* `mautrix/crypto/device_lists.py` — device-identity validation and the
  bulk device-list fetch (`DeviceListMachine`);
* `mautrix/crypto/machine.py` — the session lifecycle orchestrator
  (`OlmMachine`): one-time-key replenishment, membership-change
  invalidation, room-key intake, key sharing;
* `mautrix/client/api/modules/misc.py` — the typing-notification REST
  wrapper (`set_typing`).

Asynchronous methods with I/O are embedded as pure functions that take the
external world (signature verifier, query responses, upload success) as an
environment, thread the store state explicitly, and record their observable
effects (network calls, store writes, emitted signals) in an effect log.
Python dictionaries are embedded as insertion-ordered association lists
(for iteration order) or as total functions (for the per-user device store,
which is only accessed pointwise).
-/

namespace Mautrix

abbrev UserID := String
abbrev DeviceID := String
abbrev RoomID := String
abbrev SessionID := String

/-- Trust states of a device identity; new devices always start `unset`. -/
inductive TrustState
  | unset
  | verified
  | blacklisted
  | ignored
  deriving DecidableEq, Repr

/-- The fields of a server-reported device key bundle (`DeviceKeys`) that the
core reads.  The `ed25519` / `curve25519` accessors of the Python class
extract the corresponding keys from the bundle's key map and return an empty
string when absent, so absence is embedded as `""` (Python falsiness). -/
structure DeviceKeys where
  user_id : UserID
  device_id : DeviceID
  ed25519 : String
  curve25519 : String
  unsigned_device_display_name : String
  deriving DecidableEq, Repr

/-- A validated device identity record, one per (user, device). -/
structure DeviceIdentity where
  user_id : UserID
  device_id : DeviceID
  identity_key : String
  signing_key : String
  trust : TrustState
  name : String
  deleted : Bool
  deriving DecidableEq, Repr

/-- `DeviceValidationError` carries the reason message it is raised with. -/
abbrev DeviceValidationError := String

/-- `DeviceListMachine._validate_device` (device_lists.py lines 69-94).
The signature-JSON verifier is an external cryptographic primitive and is
passed in as an oracle; it receives the bundle in place of the bundle's
serialized JSON. -/
def _validate_device (verify : DeviceKeys → UserID → DeviceID → String → Bool)
    (user_id : UserID) (device_id : DeviceID) (device_keys : DeviceKeys)
    (existing : Option DeviceIdentity) : Except DeviceValidationError DeviceIdentity :=
  if user_id ≠ device_keys.user_id then
    .error "mismatching user ID in parameter and keys object"
  else if device_id ≠ device_keys.device_id then
    .error "mismatching device ID in parameter and keys object"
  else
    let signing_key := device_keys.ed25519
    if signing_key = "" then
      .error "didn't find ed25519 signing key"
    else
      let identity_key := device_keys.curve25519
      if identity_key = "" then
        .error "didn't find curve25519 identity key"
      else if (match existing with
               | some e => decide (e.signing_key ≠ signing_key)
               | none => false) then
        .error "received update for device with different signing key"
      else if ¬ verify device_keys user_id device_id signing_key then
        .error "invalid signature on device keys"
      else
        let name := if device_keys.unsigned_device_display_name = "" then device_id
                    else device_keys.unsigned_device_display_name
        .ok { user_id := user_id, device_id := device_id, identity_key := identity_key,
              signing_key := signing_key, trust := TrustState.unset, name := name,
              deleted := false }

/-- A user's stored device map.  Python's per-user `Dict[DeviceID,
DeviceIdentity]` is embedded as an insertion-ordered association list. -/
abbrev DeviceMap := List (DeviceID × DeviceIdentity)

/-- The observable state of the Key Store and Membership Oracle that the
device-list machine reads and writes: the tracked-user set backing
`filter_tracked_users`, the per-user device maps, and which rooms currently
hold an outbound group session. -/
structure CryptoStoreState where
  tracked : List UserID
  devices : UserID → DeviceMap
  outbound_sessions : RoomID → Bool

/-- Key Store `get_devices`. -/
def get_devices (st : CryptoStoreState) (u : UserID) : DeviceMap :=
  st.devices u

/-- Key Store `put_devices`: atomically replaces the stored device map. -/
def put_devices (st : CryptoStoreState) (u : UserID) (m : DeviceMap) : CryptoStoreState :=
  { st with devices := fun x => if x = u then m else st.devices x }

/-- Key Store `remove_outbound_group_session`: clear-if-present. -/
def remove_outbound_group_session (st : CryptoStoreState) (r : RoomID) : CryptoStoreState :=
  { st with outbound_sessions := fun x => if x = r then false else st.outbound_sessions x }

/-- `DeviceListMachine.on_devices_changed` (device_lists.py lines 63-67):
invalidate the outbound group session of every room shared with the user.
The Membership Oracle's `find_shared_rooms` is the `shared_rooms` oracle. -/
def on_devices_changed (shared_rooms : UserID → List RoomID)
    (st : CryptoStoreState) (u : UserID) : CryptoStoreState :=
  (shared_rooms u).foldl remove_outbound_group_session st

/-- Effect log of a `_fetch_keys` run: how many bulk `query_keys` network
calls were made, which `put_devices` writes happened (in order), and for
which users the devices-changed signal fired (in order). -/
structure FetchEffects where
  queryCalls : Nat
  putDevicesCalls : List (UserID × DeviceMap)
  devicesChangedCalls : List UserID
  deriving DecidableEq, Repr

/-- Errors that abort a `_fetch_keys` run: an uncaught
`DeviceValidationError` from `_validate_device`, or the `KeyError` that
`users.remove(user_id)` raises when the response names a user that was not
in the queried set. -/
inductive FetchError
  | validation (msg : DeviceValidationError)
  | keyError (u : UserID)
  deriving DecidableEq, Repr

/-- Outcome of a `_fetch_keys` run: the returned data (or the uncaught
exception), plus the store state and the effects at the moment the function
returned or the exception escaped. -/
structure FetchOutcome where
  result : Except FetchError (List (UserID × DeviceMap))
  store : CryptoStoreState
  effects : FetchEffects

/-- The environment a `_fetch_keys` run interacts with: the signature
verifier, the Membership Oracle's shared-room map, and the `device_keys`
part of the `query_keys` response the client would deliver. -/
structure FetchEnv where
  verify : DeviceKeys → UserID → DeviceID → String → Bool
  shared_rooms : UserID → List RoomID
  queryResponse : List (UserID × List (DeviceID × DeviceKeys))

/-- The inner device loop of `_fetch_keys` (device_lists.py lines 39-49):
validate each reported device of one user against the stored map, tracking
the `changed` flag (set when a reported device is absent from the store).
A `DeviceValidationError` raised by `_validate_device` is not caught and
aborts the loop; when validation returns, the result is an object (always
truthy), so it is always added to `new_devices`. -/
def validate_user_devices (verify : DeviceKeys → UserID → DeviceID → String → Bool)
    (user_id : UserID) :
    List (DeviceID × DeviceKeys) → DeviceMap → DeviceMap → Bool →
    Except DeviceValidationError (DeviceMap × Bool)
  | [], _existing_devices, new_devices, changed => .ok (new_devices, changed)
  | (device_id, keys) :: rest, existing_devices, new_devices, changed =>
    let existing := List.lookup device_id existing_devices
    let changed' := if existing.isNone then true else changed
    match _validate_device verify user_id device_id keys existing with
    | .error e => .error e
    | .ok new_device =>
      validate_user_devices verify user_id rest existing_devices
        (new_devices ++ [(device_id, new_device)]) changed'

/-- The per-user loop of `_fetch_keys` (device_lists.py lines 31-56),
iterating over `keys.device_keys.items()`.  `remaining` is the mutable
`users` set: each user in the response is removed from it (a user not in
the set raises `KeyError`).  After a user's devices validate, the new map
replaces the stored one and, when the `changed` flag is set or the device
count differs, the devices-changed signal fires. -/
def fetch_keys_loop (verify : DeviceKeys → UserID → DeviceID → String → Bool)
    (shared_rooms : UserID → List RoomID) :
    List (UserID × List (DeviceID × DeviceKeys)) → CryptoStoreState → FetchEffects →
    List (UserID × DeviceMap) → List UserID → FetchOutcome
  | [], st, eff, data, _remaining => ⟨.ok data, st, eff⟩
  | (user_id, devices) :: rest, st, eff, data, remaining =>
    if user_id ∈ remaining then
      let remaining' := remaining.erase user_id
      let existing_devices := get_devices st user_id
      match validate_user_devices verify user_id devices existing_devices [] false with
      | .error e => ⟨.error (.validation e), st, eff⟩
      | .ok (new_devices, changed) =>
        let st' := put_devices st user_id new_devices
        let eff' := { eff with putDevicesCalls := eff.putDevicesCalls ++ [(user_id, new_devices)] }
        let data' := data ++ [(user_id, new_devices)]
        if changed ∨ new_devices.length ≠ existing_devices.length then
          fetch_keys_loop verify shared_rooms rest
            (on_devices_changed shared_rooms st' user_id)
            { eff' with devicesChangedCalls := eff'.devicesChangedCalls ++ [user_id] }
            data' remaining'
        else
          fetch_keys_loop verify shared_rooms rest st' eff' data' remaining'
    else
      ⟨.error (.keyError user_id), st, eff⟩

/-- `DeviceListMachine._fetch_keys` (device_lists.py lines 15-61): filter to
tracked users unless overridden, return early on an empty set, otherwise
issue one bulk key query (`queryCalls = 1`) and process the response.
`set(users)` is embedded as `List.dedup`. -/
def _fetch_keys (env : FetchEnv) (st : CryptoStoreState) (users : List UserID)
    (include_untracked : Bool := false) : FetchOutcome :=
  let users := if include_untracked then users
               else users.filter (fun u => decide (u ∈ st.tracked))
  if users.length = 0 then
    ⟨.ok [], st, ⟨0, [], []⟩⟩
  else
    fetch_keys_loop env.verify env.shared_rooms env.queryResponse st ⟨1, [], []⟩ [] users.dedup

/-- Room membership states (`mautrix.types.Membership`), including the
`UNKNOWN` sentinel that `handle_member_event` substitutes for an absent
previous membership. -/
inductive Membership
  | join
  | leave
  | invite
  | ban
  | knock
  | unknown
  deriving DecidableEq, Repr, Fintype

/-- The `ignored_changes` table of `handle_member_event` (machine.py lines
68-72), embedded as its `dict.get` lookup function. -/
def ignored_changes : Membership → Option Membership
  | .invite => some .join
  | .ban => some .leave
  | .leave => some .ban
  | _ => none

/-- `OlmMachine.handle_member_event` (machine.py lines 63-77), returning
whether `remove_outbound_group_session` is called for the event's room.
`encrypted` is the Membership Oracle's answer for the room;
`prev` is `evt.prev_content.membership` (absent embedded as `none`, for
which the code substitutes `Membership.UNKNOWN`); `cur` is
`evt.content.membership`. -/
def handle_member_event (encrypted : Bool) (prev : Option Membership)
    (cur : Membership) : Bool :=
  if ¬ encrypted then
    false
  else
    let prev := prev.getD Membership.unknown
    if prev = cur ∨ ignored_changes prev = some cur then
      false
    else
      true

/-- The fields of the local `OlmAccount` that the orchestrator reads: the
monotone shared flag and the configured maximum one-time-key pool size. -/
structure Account where
  shared : Bool
  max_one_time_keys : Nat
  deriving DecidableEq, Repr

/-- Environment of a `share_keys` run: whether `get_device_keys` would
return a (truthy) device-keys object, how many one-time keys
`get_one_time_keys` returns for the current count, and whether the
`upload_keys` network call succeeds. -/
structure ShareKeysEnv where
  deviceKeysAvail : Bool
  oneTimeKeyCount : Nat
  uploadOk : Bool
  deriving DecidableEq, Repr

instance {ε α : Type} [DecidableEq ε] [DecidableEq α] : DecidableEq (Except ε α)
  | Except.error a, Except.error b =>
    if h : a = b then .isTrue (congrArg Except.error h)
    else .isFalse (fun he => h (Except.error.inj he))
  | Except.error _, Except.ok _ => .isFalse (fun he => Except.noConfusion he)
  | Except.ok _, Except.error _ => .isFalse (fun he => Except.noConfusion he)
  | Except.ok a, Except.ok b =>
    if h : a = b then .isTrue (congrArg Except.ok h)
    else .isFalse (fun he => h (Except.ok.inj he))

/-- Outcome of a `share_keys` run: the returned value (or the propagated
upload error), the account state afterwards, the `upload_keys` calls made
(one-time-key count and whether device keys were included), and the
`put_account` persistence calls. -/
structure ShareOutcome where
  result : Except String Unit
  account : Account
  uploadCalls : List (Nat × Bool)
  putAccountCalls : List Account
  deriving DecidableEq, Repr

/-- `OlmMachine.share_keys` (machine.py lines 94-108): include device keys
only if the account was never shared; no-op when there is nothing to
upload; on upload success set `shared := true` and persist the account; an
upload failure propagates with the account untouched and not persisted. -/
def share_keys (env : ShareKeysEnv) (account : Account) : ShareOutcome :=
  let device_keys : Bool := if ¬ account.shared then env.deviceKeysAvail else false
  let one_time_keys := env.oneTimeKeyCount
  if ¬ device_keys ∧ one_time_keys = 0 then
    ⟨.ok (), account, [], []⟩
  else if ¬ env.uploadOk then
    ⟨.error "upload_keys failed", account, [(one_time_keys, device_keys)], []⟩
  else
    let account' := { account with shared := true }
    ⟨.ok (), account', [(one_time_keys, device_keys)], [account']⟩

/-- `OlmMachine.handle_otk_count` (machine.py lines 53-57): returns
`some count` when the handler calls `share_keys count`, `none` when it does
nothing.  `signed_curve25519` is the server-reported remaining count and
the threshold is Python's `max_one_time_keys // 2` (floor division,
identical to Lean's `Nat` division). -/
def handle_otk_count (account : Account) (signed_curve25519 : Nat) : Option Nat :=
  if signed_curve25519 < account.max_one_time_keys / 2 then
    some signed_curve25519
  else
    none

/-- Encryption algorithms declared in event content
(`mautrix.types.EncryptionAlgorithm`). -/
inductive EncryptionAlgorithm
  | megolm_v1
  | olm_v1
  | unsupported
  deriving DecidableEq, Repr

/-- The room-key content fields of a decrypted to-device event. -/
structure RoomKeyContent where
  algorithm : EncryptionAlgorithm
  room_id : RoomID
  session_id : SessionID
  session_key : String
  deriving DecidableEq, Repr

/-- The fields of a `DecryptedOlmEvent` that `_receive_room_key` reads.
`keys_ed25519` is `evt.keys.ed25519`, with absence embedded as `""`
(Python falsiness). -/
structure DecryptedOlmEvent where
  sender_key : String
  keys_ed25519 : String
  content : RoomKeyContent
  deriving DecidableEq, Repr

/-- The arguments of a `_create_group_session` call: the inbound group
session is keyed by (sender key, room id, session id) and records the
sender's signing-key fingerprint and the session key. -/
structure CreateGroupSessionCall where
  sender_key : String
  signing_key : String
  room_id : RoomID
  session_id : SessionID
  session_key : String
  deriving DecidableEq, Repr

/-- `OlmMachine._receive_room_key` (machine.py lines 86-92): returns the
`_create_group_session` call it makes, or `none` when it returns without
doing anything (which is not an error). -/
def _receive_room_key (evt : DecryptedOlmEvent) : Option CreateGroupSessionCall :=
  if evt.content.algorithm ≠ EncryptionAlgorithm.megolm_v1 ∨ evt.keys_ed25519 = "" then
    none
  else
    some ⟨evt.sender_key, evt.keys_ed25519, evt.content.room_id,
          evt.content.session_id, evt.content.session_key⟩

/-- HTTP methods used by the embedded REST wrappers. -/
inductive Method
  | GET
  | PUT
  | POST
  deriving DecidableEq, Repr

/-- The body of the typing-notification request: the `typing` flag and the
optional `timeout` field of the JSON object. -/
structure TypingRequestBody where
  typing : Bool
  timeout : Option Int
  deriving DecidableEq, Repr

/-- A request issued through `self.api.request`. -/
structure TypingRequest where
  method : Method
  path : String
  content : TypingRequestBody
  deriving DecidableEq, Repr

/-- `MiscModuleMethods.set_typing` (misc.py lines 29-46): a positive
timeout sends a typing-started body carrying the timeout; otherwise a
typing-stopped body with no timeout field.  URL quoting is an external
helper passed as the `quote` oracle. -/
def set_typing (quote : String → String) (mxid : UserID) (room_id : RoomID)
    (timeout : Int := 0) : TypingRequest :=
  let content : TypingRequestBody :=
    if timeout > 0 then ⟨true, some timeout⟩ else ⟨false, none⟩
  ⟨Method.PUT, "/rooms/" ++ quote room_id ++ "/typing/" ++ quote mxid, content⟩

/-! ## Helper lemmas about the validator -/

theorem validate_mismatch_fails (verify : DeviceKeys → UserID → DeviceID → String → Bool)
    (user_id : UserID) (device_id : DeviceID) (dk : DeviceKeys) (e : DeviceIdentity)
    (h : e.signing_key ≠ dk.ed25519) :
    ∃ msg, _validate_device verify user_id device_id dk (some e) = .error msg := by
  unfold _validate_device
  dsimp only
  by_cases h1 : user_id ≠ dk.user_id
  · exact ⟨_, if_pos h1⟩
  rw [if_neg h1]
  by_cases h2 : device_id ≠ dk.device_id
  · exact ⟨_, if_pos h2⟩
  rw [if_neg h2]
  by_cases h3 : dk.ed25519 = ""
  · exact ⟨_, if_pos h3⟩
  rw [if_neg h3]
  by_cases h4 : dk.curve25519 = ""
  · exact ⟨_, if_pos h4⟩
  rw [if_neg h4]
  exact ⟨_, if_pos (by simpa using h)⟩

theorem validate_ok_signing_key (verify : DeviceKeys → UserID → DeviceID → String → Bool)
    (user_id : UserID) (device_id : DeviceID) (dk : DeviceKeys) (e : DeviceIdentity)
    (i : DeviceIdentity)
    (h : _validate_device verify user_id device_id dk (some e) = .ok i) :
    i.signing_key = e.signing_key := by
  unfold _validate_device at h
  dsimp only at h
  by_cases h1 : user_id ≠ dk.user_id
  · rw [if_pos h1] at h; cases h
  rw [if_neg h1] at h
  by_cases h2 : device_id ≠ dk.device_id
  · rw [if_pos h2] at h; cases h
  rw [if_neg h2] at h
  by_cases h3 : dk.ed25519 = ""
  · rw [if_pos h3] at h; cases h
  rw [if_neg h3] at h
  by_cases h4 : dk.curve25519 = ""
  · rw [if_pos h4] at h; cases h
  rw [if_neg h4] at h
  by_cases h5 : e.signing_key ≠ dk.ed25519
  · rw [if_pos (by simpa using h5)] at h; cases h
  rw [if_neg (by simpa using h5)] at h
  by_cases h6 : ¬ verify dk user_id device_id dk.ed25519 = true
  · rw [if_pos h6] at h; cases h
  rw [if_neg h6] at h
  cases h
  simpa using (not_not.mp h5).symm

/-! ## Helper lemmas about the per-user device loop -/

theorem validate_user_devices_mismatch_fails
    (verify : DeviceKeys → UserID → DeviceID → String → Bool) (user_id : UserID)
    (devs : List (DeviceID × DeviceKeys)) (existing_devices acc : DeviceMap) (ch : Bool)
    (d : DeviceID) (dk : DeviceKeys) (e : DeviceIdentity)
    (hmem : (d, dk) ∈ devs) (hex : List.lookup d existing_devices = some e)
    (hkey : e.signing_key ≠ dk.ed25519) :
    ∃ msg, validate_user_devices verify user_id devs existing_devices acc ch = .error msg := by
  induction devs generalizing acc ch with
  | nil => cases hmem
  | cons head rest ih =>
    obtain ⟨hd, hk⟩ := head
    rw [validate_user_devices]
    rcases List.mem_cons.mp hmem with heq | hmem'
    · cases heq
      rw [hex]
      obtain ⟨msg, hmsg⟩ := validate_mismatch_fails verify user_id d dk e hkey
      rw [hmsg]
      exact ⟨msg, rfl⟩
    · cases hv : _validate_device verify user_id hd hk (List.lookup hd existing_devices) with
      | error msg => exact ⟨msg, by simp [hv]⟩
      | ok nd => simpa [hv] using ih _ _ hmem'

theorem validate_user_devices_ok_length
    (verify : DeviceKeys → UserID → DeviceID → String → Bool) (user_id : UserID)
    (devs : List (DeviceID × DeviceKeys)) (existing_devices : DeviceMap) :
    ∀ (acc : DeviceMap) (ch : Bool) (nd : DeviceMap) (ch' : Bool),
    validate_user_devices verify user_id devs existing_devices acc ch = .ok (nd, ch') →
    nd.length = acc.length + devs.length := by
  induction devs with
  | nil =>
    intro acc ch nd ch' h
    rw [validate_user_devices] at h
    cases h
    simp
  | cons head rest ih =>
    intro acc ch nd ch' h
    obtain ⟨hd, hk⟩ := head
    rw [validate_user_devices] at h
    cases hv : _validate_device verify user_id hd hk (List.lookup hd existing_devices) with
    | error msg => rw [hv] at h; cases h
    | ok ndev =>
      rw [hv] at h
      have := ih _ _ _ _ h
      simp only [List.length_append, List.length_cons, List.length_nil] at this ⊢
      omega

theorem validate_user_devices_ok_changed
    (verify : DeviceKeys → UserID → DeviceID → String → Bool) (user_id : UserID)
    (devs : List (DeviceID × DeviceKeys)) (existing_devices : DeviceMap) :
    ∀ (acc : DeviceMap) (ch : Bool) (nd : DeviceMap) (ch' : Bool),
    validate_user_devices verify user_id devs existing_devices acc ch = .ok (nd, ch') →
    (ch' = true ↔ ch = true ∨ ∃ p ∈ devs, List.lookup p.1 existing_devices = none) := by
  induction devs with
  | nil =>
    intro acc ch nd ch' h
    rw [validate_user_devices] at h
    cases h
    simp
  | cons head rest ih =>
    intro acc ch nd ch' h
    obtain ⟨hd, hk⟩ := head
    rw [validate_user_devices] at h
    cases hv : _validate_device verify user_id hd hk (List.lookup hd existing_devices) with
    | error msg => rw [hv] at h; cases h
    | ok ndev =>
      rw [hv] at h
      have hrec := ih _ _ _ _ h
      cases hex : List.lookup hd existing_devices with
      | none =>
        have hch' : ch' = true := hrec.mpr (Or.inl (by simp [hex]))
        exact iff_of_true hch' (Or.inr ⟨(hd, hk), List.mem_cons_self _ _, hex⟩)
      | some e0 =>
        rw [hex] at hrec
        simp only [Option.isNone_some, Bool.false_eq_true, if_false] at hrec
        rw [hrec]
        constructor
        · rintro (hc | ⟨p, hp, hl⟩)
          · exact Or.inl hc
          · exact Or.inr ⟨p, List.mem_cons_of_mem _ hp, hl⟩
        · rintro (hc | ⟨p, hp, hl⟩)
          · exact Or.inl hc
          · rcases List.mem_cons.mp hp with rfl | hp'
            · rw [hex] at hl; cases hl
            · exact Or.inr ⟨p, hp', hl⟩

theorem validate_user_devices_ok_lookup
    (verify : DeviceKeys → UserID → DeviceID → String → Bool) (user_id : UserID)
    (devs : List (DeviceID × DeviceKeys)) (existing_devices : DeviceMap) :
    ∀ (acc : DeviceMap) (ch : Bool) (nd : DeviceMap) (ch' : Bool),
    validate_user_devices verify user_id devs existing_devices acc ch = .ok (nd, ch') →
    ∀ (d : DeviceID) (i : DeviceIdentity), List.lookup d nd = some i →
    List.lookup d acc = some i ∨
      ∃ dk, _validate_device verify user_id d dk (List.lookup d existing_devices) = .ok i := by
  induction devs with
  | nil =>
    intro acc ch nd ch' h d i hl
    rw [validate_user_devices] at h
    cases h
    exact Or.inl hl
  | cons head rest ih =>
    intro acc ch nd ch' h d i hl
    obtain ⟨hd, hk⟩ := head
    rw [validate_user_devices] at h
    cases hv : _validate_device verify user_id hd hk (List.lookup hd existing_devices) with
    | error msg => rw [hv] at h; cases h
    | ok ndev =>
      rw [hv] at h
      rcases ih _ _ _ _ h d i hl with hacc | hval
      · rw [List.lookup_append] at hacc
        cases hlacc : List.lookup d acc with
        | some j =>
          rw [hlacc, Option.or_some] at hacc
          exact Or.inl hacc
        | none =>
          rw [hlacc, Option.none_or] at hacc
          by_cases hde : d = hd
          · subst hde
            simp only [List.lookup, beq_self_eq_true] at hacc
            cases hacc
            exact Or.inr ⟨hk, hv⟩
          · have : (d == hd) = false := beq_false_of_ne hde
            simp only [List.lookup, this] at hacc
            cases hacc
      · exact Or.inr hval

/-! ## Helper lemmas about the store -/

theorem get_devices_put_devices (st : CryptoStoreState) (u x : UserID) (m : DeviceMap) :
    (put_devices st u m).devices x = if x = u then m else st.devices x := rfl

theorem foldl_remove_devices (rooms : List RoomID) (st : CryptoStoreState) :
    (rooms.foldl remove_outbound_group_session st).devices = st.devices := by
  induction rooms generalizing st with
  | nil => rfl
  | cons r rest ih => simpa using ih (remove_outbound_group_session st r)

theorem on_devices_changed_devices (shared_rooms : UserID → List RoomID)
    (st : CryptoStoreState) (u : UserID) :
    (on_devices_changed shared_rooms st u).devices = st.devices :=
  foldl_remove_devices (shared_rooms u) st

/-! ## Helper lemmas about the per-user fetch loop -/

theorem fetch_keys_loop_devices_untouched
    (verify : DeviceKeys → UserID → DeviceID → String → Bool)
    (shared_rooms : UserID → List RoomID)
    (resp : List (UserID × List (DeviceID × DeviceKeys))) :
    ∀ (st : CryptoStoreState) (eff : FetchEffects) (data : List (UserID × DeviceMap))
      (rem : List UserID) (u : UserID), u ∉ resp.map Prod.fst →
    (fetch_keys_loop verify shared_rooms resp st eff data rem).store.devices u
      = st.devices u := by
  induction resp with
  | nil => intro st eff data rem u _; rfl
  | cons head rest ih =>
    intro st eff data rem u hu
    obtain ⟨user_id, devices⟩ := head
    have hne : u ≠ user_id := fun he => hu (by simp [he])
    have hurest : u ∉ rest.map Prod.fst := fun hmem => hu (by simp [hmem])
    rw [fetch_keys_loop]
    by_cases hm : user_id ∈ rem
    · rw [if_pos hm]
      dsimp only
      cases hv : validate_user_devices verify user_id devices (get_devices st user_id) [] false with
      | error e => rfl
      | ok pair =>
        obtain ⟨new_devices, changed⟩ := pair
        dsimp only
        by_cases hch : changed = true ∨ new_devices.length ≠ (get_devices st user_id).length
        · rw [if_pos hch]
          rw [ih _ _ _ _ u hurest]
          rw [on_devices_changed_devices]
          rw [get_devices_put_devices, if_neg hne]
        · rw [if_neg hch]
          rw [ih _ _ _ _ u hurest]
          rw [get_devices_put_devices, if_neg hne]
    · rw [if_neg hm]

theorem fetch_keys_loop_changed_mono
    (verify : DeviceKeys → UserID → DeviceID → String → Bool)
    (shared_rooms : UserID → List RoomID)
    (resp : List (UserID × List (DeviceID × DeviceKeys))) :
    ∀ (st : CryptoStoreState) (eff : FetchEffects) (data : List (UserID × DeviceMap))
      (rem : List UserID) (x : UserID), x ∈ eff.devicesChangedCalls →
    x ∈ (fetch_keys_loop verify shared_rooms resp st eff data rem).effects.devicesChangedCalls := by
  induction resp with
  | nil => intro st eff data rem x hx; exact hx
  | cons head rest ih =>
    intro st eff data rem x hx
    obtain ⟨user_id, devices⟩ := head
    rw [fetch_keys_loop]
    by_cases hm : user_id ∈ rem
    · rw [if_pos hm]
      dsimp only
      cases hv : validate_user_devices verify user_id devices (get_devices st user_id) [] false with
      | error e => exact hx
      | ok pair =>
        obtain ⟨new_devices, changed⟩ := pair
        dsimp only
        by_cases hch : changed = true ∨ new_devices.length ≠ (get_devices st user_id).length
        · rw [if_pos hch]
          exact ih _ _ _ _ x (List.mem_append_left _ hx)
        · rw [if_neg hch]
          exact ih _ _ _ _ x hx
    · rw [if_neg hm]
      exact hx

theorem fetch_keys_loop_changed_notmem
    (verify : DeviceKeys → UserID → DeviceID → String → Bool)
    (shared_rooms : UserID → List RoomID)
    (resp : List (UserID × List (DeviceID × DeviceKeys))) :
    ∀ (st : CryptoStoreState) (eff : FetchEffects) (data : List (UserID × DeviceMap))
      (rem : List UserID) (x : UserID),
    x ∉ eff.devicesChangedCalls → x ∉ resp.map Prod.fst →
    x ∉ (fetch_keys_loop verify shared_rooms resp st eff data rem).effects.devicesChangedCalls := by
  induction resp with
  | nil => intro st eff data rem x hx _; exact hx
  | cons head rest ih =>
    intro st eff data rem x hx hkeys
    obtain ⟨user_id, devices⟩ := head
    have hne : x ≠ user_id := fun he => hkeys (by simp [he])
    have hxrest : x ∉ rest.map Prod.fst := fun hmem => hkeys (by simp [hmem])
    rw [fetch_keys_loop]
    by_cases hm : user_id ∈ rem
    · rw [if_pos hm]
      dsimp only
      cases hv : validate_user_devices verify user_id devices (get_devices st user_id) [] false with
      | error e => exact hx
      | ok pair =>
        obtain ⟨new_devices, changed⟩ := pair
        dsimp only
        by_cases hch : changed = true ∨ new_devices.length ≠ (get_devices st user_id).length
        · rw [if_pos hch]
          refine ih _ _ _ _ x ?_ hxrest
          intro hmem
          rcases List.mem_append.mp hmem with h1 | h2
          · exact hx h1
          · exact hne (by simpa using h2)
        · rw [if_neg hch]
          exact ih _ _ _ _ x hx hxrest
    · rw [if_neg hm]
      exact hx

theorem fetch_keys_loop_signing_key
    (verify : DeviceKeys → UserID → DeviceID → String → Bool)
    (shared_rooms : UserID → List RoomID)
    (resp : List (UserID × List (DeviceID × DeviceKeys))) :
    ∀ (st : CryptoStoreState) (eff : FetchEffects) (data : List (UserID × DeviceMap))
      (rem : List UserID), (resp.map Prod.fst).Nodup →
    ∀ (u : UserID) (d : DeviceID) (e i : DeviceIdentity),
    List.lookup d (st.devices u) = some e →
    List.lookup d ((fetch_keys_loop verify shared_rooms resp st eff data rem).store.devices u)
      = some i →
    i.signing_key = e.signing_key := by
  induction resp with
  | nil =>
    intro st eff data rem _ u d e i hold hnew
    rw [fetch_keys_loop] at hnew
    rw [hold] at hnew
    cases hnew
    rfl
  | cons head rest ih =>
    intro st eff data rem hnodup u d e i hold hnew
    obtain ⟨user_id, devices⟩ := head
    rw [List.map_cons, List.nodup_cons] at hnodup
    obtain ⟨hhead, hrestnodup⟩ := hnodup
    rw [fetch_keys_loop] at hnew
    by_cases hm : user_id ∈ rem
    · rw [if_pos hm] at hnew
      dsimp only at hnew
      cases hv : validate_user_devices verify user_id devices (get_devices st user_id) [] false with
      | error msg =>
        rw [hv] at hnew
        dsimp only at hnew
        rw [hold] at hnew
        cases hnew
        rfl
      | ok pair =>
        obtain ⟨new_devices, changed⟩ := pair
        rw [hv] at hnew
        dsimp only at hnew
        by_cases hu : u = user_id
        · subst hu
          have hrest : u ∉ rest.map Prod.fst := hhead
          have hfinal :
              List.lookup d new_devices = some i := by
            by_cases hch : changed = true ∨ new_devices.length ≠ (get_devices st u).length
            · rw [if_pos hch] at hnew
              rw [fetch_keys_loop_devices_untouched verify shared_rooms rest _ _ _ _ u hrest]
                at hnew
              rw [on_devices_changed_devices] at hnew
              rw [get_devices_put_devices, if_pos rfl] at hnew
              exact hnew
            · rw [if_neg hch] at hnew
              rw [fetch_keys_loop_devices_untouched verify shared_rooms rest _ _ _ _ u hrest]
                at hnew
              rw [get_devices_put_devices, if_pos rfl] at hnew
              exact hnew
          rcases validate_user_devices_ok_lookup verify u devices (get_devices st u)
              [] false new_devices changed hv d i hfinal with hacc | ⟨dk, hok⟩
          · rw [List.lookup_nil] at hacc
            cases hacc
          · have : List.lookup d (get_devices st u) = some e := hold
            rw [this] at hok
            exact validate_ok_signing_key verify u d dk e i hok
        · have hpres :
              (on_devices_changed shared_rooms (put_devices st user_id new_devices)
                user_id).devices u = st.devices u := by
            rw [on_devices_changed_devices, get_devices_put_devices, if_neg hu]
          have hpres2 : (put_devices st user_id new_devices).devices u = st.devices u := by
            rw [get_devices_put_devices, if_neg hu]
          by_cases hch : changed = true ∨ new_devices.length ≠ (get_devices st user_id).length
          · rw [if_pos hch] at hnew
            exact ih _ _ _ _ hrestnodup u d e i (by rw [hpres]; exact hold) hnew
          · rw [if_neg hch] at hnew
            exact ih _ _ _ _ hrestnodup u d e i (by rw [hpres2]; exact hold) hnew
    · rw [if_neg hm] at hnew
      dsimp only at hnew
      rw [hold] at hnew
      cases hnew
      rfl

theorem fetch_keys_loop_mismatch_aborts
    (verify : DeviceKeys → UserID → DeviceID → String → Bool)
    (shared_rooms : UserID → List RoomID)
    (resp : List (UserID × List (DeviceID × DeviceKeys))) :
    ∀ (st : CryptoStoreState) (eff : FetchEffects) (data : List (UserID × DeviceMap))
      (rem : List UserID),
    (resp.map Prod.fst).Nodup → (∀ p ∈ resp, p.1 ∈ rem) → rem.Nodup →
    ∀ (u : UserID) (devs : List (DeviceID × DeviceKeys)) (d : DeviceID) (dk : DeviceKeys)
      (e : DeviceIdentity),
    (u, devs) ∈ resp → (d, dk) ∈ devs →
    List.lookup d (st.devices u) = some e → e.signing_key ≠ dk.ed25519 →
    (∃ msg, (fetch_keys_loop verify shared_rooms resp st eff data rem).result
        = .error (.validation msg)) ∧
      (fetch_keys_loop verify shared_rooms resp st eff data rem).store.devices u
        = st.devices u := by
  induction resp with
  | nil =>
    intro st eff data rem _ _ _ u devs d dk e hresp _ _ _
    cases hresp
  | cons head rest ih =>
    intro st eff data rem hnodup hrem hremnodup u devs d dk e hresp hdev hold hkey
    obtain ⟨user_id, devices⟩ := head
    rw [List.map_cons, List.nodup_cons] at hnodup
    obtain ⟨hhead, hrestnodup⟩ := hnodup
    have hm : user_id ∈ rem := hrem (user_id, devices) (List.mem_cons_self _ _)
    rw [fetch_keys_loop, if_pos hm]
    dsimp only
    rcases List.mem_cons.mp hresp with heq | htail
    · injection heq with h1 h2
      subst h1
      subst h2
      obtain ⟨msg, hmsg⟩ := validate_user_devices_mismatch_fails verify u devs
        (get_devices st u) [] false d dk e hdev hold hkey
      rw [hmsg]
      exact ⟨⟨msg, rfl⟩, rfl⟩
    · have hu : u ≠ user_id := by
        intro he
        apply hhead
        rw [← he]
        exact List.mem_map.mpr ⟨(u, devs), htail, rfl⟩
      cases hv : validate_user_devices verify user_id devices (get_devices st user_id)
          [] false with
      | error msg => exact ⟨⟨msg, rfl⟩, rfl⟩
      | ok pair =>
        obtain ⟨new_devices, changed⟩ := pair
        dsimp only
        have hremkeys : ∀ p ∈ rest, p.1 ∈ rem.erase user_id := by
          intro p hp
          have hpne : p.1 ≠ user_id := by
            intro he
            apply hhead
            rw [← he]
            exact List.mem_map.mpr ⟨p, hp, rfl⟩
          exact (List.mem_erase_of_ne hpne).mpr (hrem p (List.mem_cons_of_mem _ hp))
        have hremnodup' : (rem.erase user_id).Nodup := hremnodup.erase _
        have hpres2 : (put_devices st user_id new_devices).devices u = st.devices u := by
          rw [get_devices_put_devices, if_neg hu]
        have hpres :
            (on_devices_changed shared_rooms (put_devices st user_id new_devices)
              user_id).devices u = st.devices u := by
          rw [on_devices_changed_devices]; exact hpres2
        by_cases hch : changed = true ∨ new_devices.length ≠ (get_devices st user_id).length
        · rw [if_pos hch]
          have hmain := ih
            (on_devices_changed shared_rooms (put_devices st user_id new_devices) user_id)
            { eff with putDevicesCalls := eff.putDevicesCalls ++ [(user_id, new_devices)],
                       devicesChangedCalls := eff.devicesChangedCalls ++ [user_id] }
            (data ++ [(user_id, new_devices)]) (rem.erase user_id)
            hrestnodup hremkeys hremnodup' u devs d dk e htail hdev
            (by rw [hpres]; exact hold) hkey
          exact ⟨hmain.1, hmain.2.trans hpres⟩
        · rw [if_neg hch]
          have hmain := ih (put_devices st user_id new_devices)
            { eff with putDevicesCalls := eff.putDevicesCalls ++ [(user_id, new_devices)] }
            (data ++ [(user_id, new_devices)]) (rem.erase user_id)
            hrestnodup hremkeys hremnodup' u devs d dk e htail hdev
            (by rw [hpres2]; exact hold) hkey
          exact ⟨hmain.1, hmain.2.trans hpres2⟩

theorem fetch_keys_loop_changed_iff
    (verify : DeviceKeys → UserID → DeviceID → String → Bool)
    (shared_rooms : UserID → List RoomID)
    (resp : List (UserID × List (DeviceID × DeviceKeys))) :
    ∀ (st : CryptoStoreState) (eff : FetchEffects) (data : List (UserID × DeviceMap))
      (rem : List UserID) (dataRes : List (UserID × DeviceMap)),
    (resp.map Prod.fst).Nodup →
    ∀ (u : UserID) (devs : List (DeviceID × DeviceKeys)),
    (u, devs) ∈ resp → u ∉ eff.devicesChangedCalls →
    (fetch_keys_loop verify shared_rooms resp st eff data rem).result = .ok dataRes →
    (u ∈ (fetch_keys_loop verify shared_rooms resp st eff data rem).effects.devicesChangedCalls ↔
      ((∃ p ∈ devs, List.lookup p.1 (get_devices st u) = none) ∨
        devs.length ≠ (get_devices st u).length)) := by
  induction resp with
  | nil =>
    intro st eff data rem dataRes _ u devs hresp _ _
    cases hresp
  | cons head rest ih =>
    intro st eff data rem dataRes hnodup u devs hresp heff hok
    obtain ⟨user_id, devices⟩ := head
    rw [List.map_cons, List.nodup_cons] at hnodup
    obtain ⟨hhead, hrestnodup⟩ := hnodup
    rw [fetch_keys_loop] at hok ⊢
    by_cases hm : user_id ∈ rem
    · rw [if_pos hm] at hok ⊢
      dsimp only at hok ⊢
      cases hv : validate_user_devices verify user_id devices (get_devices st user_id) [] false with
      | error msg =>
        rw [hv] at hok
        dsimp only at hok
        exact Except.noConfusion hok
      | ok pair =>
        obtain ⟨new_devices, changed⟩ := pair
        rw [hv] at hok
        dsimp only at hok ⊢
        rcases List.mem_cons.mp hresp with heq | htail
        · injection heq with h1 h2
          subst h1
          subst h2
          have hlen := validate_user_devices_ok_length verify u devs (get_devices st u)
            [] false new_devices changed hv
          have hch := validate_user_devices_ok_changed verify u devs (get_devices st u)
            [] false new_devices changed hv
          simp only [Bool.false_eq_true, false_or] at hch
          simp only [List.length_nil, Nat.zero_add] at hlen
          by_cases hfired : changed = true ∨ new_devices.length ≠ (get_devices st u).length
          · rw [if_pos hfired] at hok ⊢
            rw [hlen] at hfired
            have hrhs : (∃ p ∈ devs, List.lookup p.1 (get_devices st u) = none) ∨
                devs.length ≠ (get_devices st u).length := by
              rcases hfired with hc | hl
              · exact Or.inl (hch.mp hc)
              · exact Or.inr hl
            exact iff_of_true (fetch_keys_loop_changed_mono _ _ _ _ _ _ _ u
              (List.mem_append_right _ (List.mem_singleton_self u))) hrhs
          · rw [if_neg hfired] at hok ⊢
            push_neg at hfired
            obtain ⟨hc, hl⟩ := hfired
            have hrhsf : ¬ ((∃ p ∈ devs, List.lookup p.1 (get_devices st u) = none) ∨
                devs.length ≠ (get_devices st u).length) := by
              push_neg
              refine ⟨?_, ?_⟩
              · intro p hp hnone
                exact hc (hch.mpr ⟨p, hp, hnone⟩)
              · rw [← hlen]
                exact hl
            exact iff_of_false (fetch_keys_loop_changed_notmem _ _ _ _ _ _ _ u heff hhead) hrhsf
        · have hune : u ≠ user_id := by
            intro he
            apply hhead
            rw [← he]
            exact List.mem_map.mpr ⟨(u, devs), htail, rfl⟩
          have hpres :
              (on_devices_changed shared_rooms (put_devices st user_id new_devices)
                user_id).devices u = st.devices u := by
            rw [on_devices_changed_devices, get_devices_put_devices, if_neg hune]
          have hpres2 : (put_devices st user_id new_devices).devices u = st.devices u := by
            rw [get_devices_put_devices, if_neg hune]
          by_cases hfired : changed = true ∨ new_devices.length ≠ (get_devices st user_id).length
          · rw [if_pos hfired] at hok ⊢
            have hih := ih _ _ _ _ _ hrestnodup u devs htail (by
              intro hmem
              rcases List.mem_append.mp hmem with h1 | h2
              · exact heff h1
              · exact hune (by simpa using h2)) hok
            rw [show get_devices (on_devices_changed shared_rooms
                (put_devices st user_id new_devices) user_id) u = get_devices st u from hpres]
              at hih
            exact hih
          · rw [if_neg hfired] at hok ⊢
            have hih := ih _ _ _ _ _ hrestnodup u devs htail (by exact heff) hok
            rw [show get_devices (put_devices st user_id new_devices) u = get_devices st u
              from hpres2] at hih
            exact hih
    · rw [if_neg hm] at hok
      dsimp only at hok
      exact Except.noConfusion hok

/-! ## Claim theorems -/

/-- C4: in an encrypted room, a membership state event (previous membership
defaulting to the unknown sentinel when absent) invalidates the room's
outbound group session if and only if previous ≠ new and (previous → new) is
not one of the ignore-table transitions invite→join, ban→leave, leave→ban;
in particular invite→join never invalidates, join→leave always does, and
events in unencrypted rooms never invalidate. -/
theorem C4_membership_invalidation_rule :
    (∀ (encrypted : Bool) (prev : Option Membership) (cur : Membership),
      handle_member_event encrypted prev cur = true ↔
        encrypted = true ∧ prev.getD Membership.unknown ≠ cur ∧
          (prev.getD Membership.unknown, cur) ∉
            [(Membership.invite, Membership.join), (Membership.ban, Membership.leave),
             (Membership.leave, Membership.ban)]) ∧
    (∀ (encrypted : Bool),
      handle_member_event encrypted (some Membership.invite) Membership.join = false) ∧
    handle_member_event true (some Membership.join) Membership.leave = true ∧
    (∀ (prev : Option Membership) (cur : Membership),
      handle_member_event false prev cur = false) := by
  decide

/-- C5: `handle_otk_count` triggers `share_keys`, passing the reported
count, if and only if the server-reported remaining one-time-key count is
below half the account's configured maximum (integer half, matching the
nonnegative integer counts involved). -/
theorem C5_otk_replenishment_threshold :
    ∀ (account : Account) (signed_curve25519 : Nat),
      (handle_otk_count account signed_curve25519 = some signed_curve25519 ↔
        signed_curve25519 < account.max_one_time_keys / 2) ∧
      (handle_otk_count account signed_curve25519 = none ↔
        ¬ signed_curve25519 < account.max_one_time_keys / 2) := by
  intro account c
  by_cases hlt : c < account.max_one_time_keys / 2 <;>
    simp [handle_otk_count, hlt]

/-- C9: `_receive_room_key` creates an inbound group session keyed by
(sender's exchange key, room id, session id) if and only if the content's
declared algorithm is megolm-v1 and the decrypted envelope carries an
ed25519 signing-key fingerprint; otherwise it returns without error and
creates nothing. -/
theorem C9_room_key_intake_filter :
    ∀ (evt : DecryptedOlmEvent),
      ((_receive_room_key evt).isSome ↔
        evt.content.algorithm = EncryptionAlgorithm.megolm_v1 ∧ evt.keys_ed25519 ≠ "") ∧
      (∀ call, _receive_room_key evt = some call →
        call = ⟨evt.sender_key, evt.keys_ed25519, evt.content.room_id,
                evt.content.session_id, evt.content.session_key⟩) := by
  intro evt
  by_cases h1 : evt.content.algorithm = EncryptionAlgorithm.megolm_v1 <;>
    by_cases h2 : evt.keys_ed25519 = "" <;>
      constructor <;>
        simp [_receive_room_key, h1, h2]

/-- C9 witness: a megolm-v1 event with an ed25519 fingerprint creates a
session; derived by applying the claim theorem at a concrete event. -/
theorem C9_room_key_intake_filter_witness :
    (_receive_room_key ⟨"sender", "ed", ⟨EncryptionAlgorithm.megolm_v1, "!r", "sid",
      "skey"⟩⟩).isSome = true :=
  by simpa using
    (C9_room_key_intake_filter ⟨"sender", "ed",
      ⟨EncryptionAlgorithm.megolm_v1, "!r", "sid", "skey"⟩⟩).1.mpr ⟨rfl, by decide⟩

/-- C10: `set_typing` with a positive timeout sends the body
`{typing: true, timeout: timeout}`; with a zero or negative timeout it
sends `{typing: false}` with no timeout field, so a stop-typing request
never carries a timeout. -/
theorem C10_set_typing_body :
    ∀ (quote : String → String) (mxid : UserID) (room_id : RoomID) (timeout : Int),
      (timeout > 0 → set_typing quote mxid room_id timeout =
        ⟨Method.PUT, "/rooms/" ++ quote room_id ++ "/typing/" ++ quote mxid,
         ⟨true, some timeout⟩⟩) ∧
      (timeout ≤ 0 → set_typing quote mxid room_id timeout =
        ⟨Method.PUT, "/rooms/" ++ quote room_id ++ "/typing/" ++ quote mxid,
         ⟨false, none⟩⟩) ∧
      ((set_typing quote mxid room_id timeout).content.timeout ≠ none → timeout > 0) := by
  intro q mxid room t
  refine ⟨?_, ?_, ?_⟩
  · intro ht
    simp [set_typing, ht]
  · intro ht
    have hng : ¬ t > 0 := by omega
    simp [set_typing, hng]
  · intro hne
    by_contra hng
    simp [set_typing, hng] at hne

/-- C10 witness: concrete instances with a positive and a zero timeout,
derived by applying the claim theorem. -/
theorem C10_set_typing_body_witness :
    set_typing id "@me:x" "!room" 5000 =
      ⟨Method.PUT, "/rooms/!room/typing/@me:x", ⟨true, some 5000⟩⟩ ∧
    set_typing id "@me:x" "!room" 0 =
      ⟨Method.PUT, "/rooms/!room/typing/@me:x", ⟨false, none⟩⟩ :=
  ⟨(C10_set_typing_body id "@me:x" "!room" 5000).1 (by decide),
   (C10_set_typing_body id "@me:x" "!room" 0).2.1 (by decide)⟩

/-- C3: `share_keys` sets the shared flag and persists the account only
after `upload_keys` succeeds; when the upload fails the error propagates,
the shared flag is unchanged (in particular stays false), and the account
is not persisted. -/
theorem C3_share_keys_atomicity :
    ∀ (env : ShareKeysEnv) (account : Account),
      (env.uploadOk = false → (share_keys env account).uploadCalls ≠ [] →
        (∃ e, (share_keys env account).result = .error e) ∧
        (share_keys env account).account.shared = account.shared ∧
        (share_keys env account).putAccountCalls = []) ∧
      ((share_keys env account).putAccountCalls ≠ [] →
        env.uploadOk = true ∧ (share_keys env account).account.shared = true) ∧
      ((share_keys env account).account.shared = true →
        account.shared = true ∨ env.uploadOk = true) ∧
      (env.uploadOk = true → (share_keys env account).uploadCalls ≠ [] →
        (share_keys env account).account.shared = true ∧
        (share_keys env account).putAccountCalls = [(share_keys env account).account]) := by
  intro env account
  obtain ⟨dka, otk, up⟩ := env
  obtain ⟨sh, mx⟩ := account
  cases dka <;> cases up <;> cases sh <;>
    by_cases hotk : otk = 0 <;>
      simp [share_keys, hotk]

/-- C3 witness: a failing upload with pending one-time keys leaves
`shared = false` and persists nothing; derived by applying the claim
theorem at a concrete environment. -/
theorem C3_share_keys_atomicity_witness :
    (∃ e, (share_keys ⟨true, 5, false⟩ ⟨false, 100⟩).result = .error e) ∧
    (share_keys ⟨true, 5, false⟩ ⟨false, 100⟩).account.shared = false ∧
    (share_keys ⟨true, 5, false⟩ ⟨false, 100⟩).putAccountCalls = [] :=
  (C3_share_keys_atomicity ⟨true, 5, false⟩ ⟨false, 100⟩).1 rfl (by decide)

/-- C6: `_validate_device` performs its checks in order — (1) bundle user
id, (2) bundle device id, (3) signing key present, (4) identity key
present, (5) signing key pinned to any prior record, (6) signature — each
short-circuiting with the corresponding `DeviceValidationError`; on success
the returned identity carries the bundle's self-reported display name (or
the device id when absent), trust state `unset`, and `deleted = false`. -/
theorem C6_validator_order_and_postcondition :
    ∀ (verify : DeviceKeys → UserID → DeviceID → String → Bool)
      (u : UserID) (d : DeviceID) (dk : DeviceKeys) (ex : Option DeviceIdentity),
      (u ≠ dk.user_id → _validate_device verify u d dk ex =
        .error "mismatching user ID in parameter and keys object") ∧
      (u = dk.user_id → d ≠ dk.device_id → _validate_device verify u d dk ex =
        .error "mismatching device ID in parameter and keys object") ∧
      (u = dk.user_id → d = dk.device_id → dk.ed25519 = "" →
        _validate_device verify u d dk ex = .error "didn't find ed25519 signing key") ∧
      (u = dk.user_id → d = dk.device_id → dk.ed25519 ≠ "" → dk.curve25519 = "" →
        _validate_device verify u d dk ex = .error "didn't find curve25519 identity key") ∧
      (∀ e, ex = some e → u = dk.user_id → d = dk.device_id → dk.ed25519 ≠ "" →
        dk.curve25519 ≠ "" → e.signing_key ≠ dk.ed25519 →
        _validate_device verify u d dk ex =
          .error "received update for device with different signing key") ∧
      (u = dk.user_id → d = dk.device_id → dk.ed25519 ≠ "" → dk.curve25519 ≠ "" →
        (∀ e, ex = some e → e.signing_key = dk.ed25519) →
        verify dk u d dk.ed25519 = false →
        _validate_device verify u d dk ex = .error "invalid signature on device keys") ∧
      (u = dk.user_id → d = dk.device_id → dk.ed25519 ≠ "" → dk.curve25519 ≠ "" →
        (∀ e, ex = some e → e.signing_key = dk.ed25519) →
        verify dk u d dk.ed25519 = true →
        _validate_device verify u d dk ex =
          .ok ⟨u, d, dk.curve25519, dk.ed25519, TrustState.unset,
               (if dk.unsigned_device_display_name = "" then d
                else dk.unsigned_device_display_name), false⟩) := by
  intro verify u d dk ex
  refine ⟨?_, ?_, ?_, ?_, ?_, ?_, ?_⟩
  · intro h1
    unfold _validate_device
    rw [if_pos h1]
  · intro h1 h2
    unfold _validate_device
    rw [if_neg (not_not_intro h1), if_pos h2]
  · intro h1 h2 h3
    unfold _validate_device
    rw [if_neg (not_not_intro h1), if_neg (not_not_intro h2)]
    dsimp only
    rw [if_pos h3]
  · intro h1 h2 h3 h4
    unfold _validate_device
    rw [if_neg (not_not_intro h1), if_neg (not_not_intro h2)]
    dsimp only
    rw [if_neg h3, if_pos h4]
  · intro e hex h1 h2 h3 h4 h5
    subst hex
    unfold _validate_device
    rw [if_neg (not_not_intro h1), if_neg (not_not_intro h2)]
    dsimp only
    rw [if_neg h3, if_neg h4, if_pos (by simpa using h5)]
  · intro h1 h2 h3 h4 hpin h6
    unfold _validate_device
    rw [if_neg (not_not_intro h1), if_neg (not_not_intro h2)]
    dsimp only
    rw [if_neg h3, if_neg h4]
    cases ex with
    | none =>
      rw [if_neg (by simp)]
      rw [if_pos (by simp [h6])]
    | some e =>
      rw [if_neg (by simp [hpin e rfl])]
      rw [if_pos (by simp [h6])]
  · intro h1 h2 h3 h4 hpin h6
    unfold _validate_device
    rw [if_neg (not_not_intro h1), if_neg (not_not_intro h2)]
    dsimp only
    rw [if_neg h3, if_neg h4]
    cases ex with
    | none =>
      rw [if_neg (by simp)]
      rw [if_neg (by simp [h6])]
    | some e =>
      rw [if_neg (by simp [hpin e rfl])]
      rw [if_neg (by simp [h6])]

/-- C6 witness: a well-formed first-seen bundle validates to an identity
with trust `unset`, `deleted = false`, and the device id as fallback name;
derived by applying the claim theorem. -/
theorem C6_validator_order_and_postcondition_witness :
    _validate_device (fun _ _ _ _ => true) "@u:x" "D1" ⟨"@u:x", "D1", "sk", "ik", ""⟩ none =
      .ok ⟨"@u:x", "D1", "ik", "sk", TrustState.unset, "D1", false⟩ := by
  have h := (C6_validator_order_and_postcondition (fun _ _ _ _ => true) "@u:x" "D1"
    ⟨"@u:x", "D1", "sk", "ik", ""⟩ none).2.2.2.2.2.2 rfl rfl (by decide) (by decide)
    (fun e he => by cases he) rfl
  simpa using h

/-- C8: when the user set is empty after filtering to tracked users (unless
`include_untracked` overrides the filter), `_fetch_keys` makes no network
call, performs no store write, and returns an empty map with the store
untouched. -/
theorem C8_empty_set_cost_avoidance :
    ∀ (env : FetchEnv) (st : CryptoStoreState) (users : List UserID)
      (include_untracked : Bool),
      (if include_untracked then users
       else users.filter (fun u => decide (u ∈ st.tracked))) = [] →
      _fetch_keys env st users include_untracked =
        ⟨.ok [], st, ⟨0, [], []⟩⟩ := by
  intro env st users inc h
  unfold _fetch_keys
  dsimp only
  rw [h]
  rfl

/-- C8 witness: a query for a single untracked user is filtered to nothing
and short-circuits; derived by applying the claim theorem. -/
theorem C8_empty_set_cost_avoidance_witness :
    _fetch_keys ⟨fun _ _ _ _ => true, fun _ => [], []⟩
        ⟨[], fun _ => [], fun _ => false⟩ ["@u:x"] false =
      ⟨.ok [], ⟨[], fun _ => [], fun _ => false⟩, ⟨0, [], []⟩⟩ :=
  C8_empty_set_cost_avoidance ⟨fun _ _ _ _ => true, fun _ => [], []⟩
    ⟨[], fun _ => [], fun _ => false⟩ ["@u:x"] false (by decide)

/-- C1: signing-key pinning.  Validating a bundle whose signing key differs
from the stored identity's always fails with a `DeviceValidationError`; no
`_fetch_keys` run ever stores an identity for a (user, device) whose
signing key differs from the one already stored; and in a run whose
response carries such a mismatching bundle for a stored (user, device), the
operation fails with a `DeviceValidationError` and that user's stored
device map is left untouched. -/
theorem C1_signing_key_pinning :
    (∀ (verify : DeviceKeys → UserID → DeviceID → String → Bool)
       (user_id : UserID) (device_id : DeviceID) (dk : DeviceKeys) (e : DeviceIdentity),
       e.signing_key ≠ dk.ed25519 →
       ∃ msg, _validate_device verify user_id device_id dk (some e) = .error msg) ∧
    (∀ (env : FetchEnv) (st : CryptoStoreState) (users : List UserID)
       (include_untracked : Bool) (u : UserID) (d : DeviceID) (e i : DeviceIdentity),
       (env.queryResponse.map Prod.fst).Nodup →
       List.lookup d (get_devices st u) = some e →
       List.lookup d
         (get_devices (_fetch_keys env st users include_untracked).store u) = some i →
       i.signing_key = e.signing_key) ∧
    (∀ (env : FetchEnv) (st : CryptoStoreState) (users : List UserID)
       (u : UserID) (devs : List (DeviceID × DeviceKeys)) (d : DeviceID)
       (dk : DeviceKeys) (e : DeviceIdentity),
       (env.queryResponse.map Prod.fst).Nodup →
       (∀ p ∈ env.queryResponse, p.1 ∈ users.filter (fun x => decide (x ∈ st.tracked))) →
       (u, devs) ∈ env.queryResponse → (d, dk) ∈ devs →
       List.lookup d (get_devices st u) = some e → e.signing_key ≠ dk.ed25519 →
       (∃ msg, (_fetch_keys env st users false).result = .error (.validation msg)) ∧
       get_devices (_fetch_keys env st users false).store u = get_devices st u) := by
  refine ⟨validate_mismatch_fails, ?_, ?_⟩
  · intro env st users inc u d e i hnodup hold hnew
    unfold _fetch_keys at hnew
    dsimp only at hnew
    by_cases hlen :
        (if inc then users else users.filter (fun x => decide (x ∈ st.tracked))).length = 0
    · rw [if_pos hlen] at hnew
      dsimp only at hnew
      rw [hold] at hnew
      cases hnew
      rfl
    · rw [if_neg hlen] at hnew
      exact fetch_keys_loop_signing_key env.verify env.shared_rooms env.queryResponse
        _ _ _ _ hnodup u d e i hold hnew
  · intro env st users u devs d dk e hnodup hall hresp hdev hold hkey
    have hmemF : u ∈ users.filter (fun x => decide (x ∈ st.tracked)) := hall (u, devs) hresp
    have hne : ¬ (users.filter (fun x => decide (x ∈ st.tracked))).length = 0 := by
      intro h0
      rw [List.length_eq_zero] at h0
      rw [h0] at hmemF
      cases hmemF
    have hrem : ∀ p ∈ env.queryResponse,
        p.1 ∈ (users.filter (fun x => decide (x ∈ st.tracked))).dedup := by
      intro p hp
      exact List.mem_dedup.mpr (hall p hp)
    have hremnodup : ((users.filter (fun x => decide (x ∈ st.tracked))).dedup).Nodup :=
      List.nodup_dedup _
    unfold _fetch_keys
    dsimp only
    rw [if_neg Bool.false_ne_true, if_neg hne]
    exact fetch_keys_loop_mismatch_aborts env.verify env.shared_rooms env.queryResponse
      _ _ _ _ hnodup hrem hremnodup u devs d dk e hresp hdev hold hkey

/-- The stored identity, mismatching key bundle, environment and store of
the C1 witness scenario: device D1 of user @u:x is stored with signing key
"sk" and the server reports a bundle for D1 bearing signing key "OTHER". -/
def pinned_identity : DeviceIdentity :=
  ⟨"@u:x", "D1", "ik", "sk", TrustState.unset, "D1", false⟩

def mismatching_bundle : DeviceKeys := ⟨"@u:x", "D1", "OTHER", "ik", ""⟩

def pin_env : FetchEnv :=
  ⟨fun _ _ _ _ => true, fun _ => [], [("@u:x", [("D1", mismatching_bundle)])]⟩

def pin_store : CryptoStoreState :=
  ⟨["@u:x"], fun x => if x = "@u:x" then [("D1", pinned_identity)] else [],
   fun _ => false⟩

/-- C1 witness: in the concrete pinning scenario the fetch fails with a
`DeviceValidationError` and the stored device map of @u:x is untouched;
derived by applying the claim theorem. -/
theorem C1_signing_key_pinning_witness :
    (∃ msg, (_fetch_keys pin_env pin_store ["@u:x"] false).result =
      .error (.validation msg)) ∧
    get_devices (_fetch_keys pin_env pin_store ["@u:x"] false).store "@u:x" =
      get_devices pin_store "@u:x" :=
  C1_signing_key_pinning.2.2 pin_env pin_store ["@u:x"] "@u:x"
    [("D1", mismatching_bundle)] "D1" mismatching_bundle pinned_identity
    (by decide) (by decide) (by decide) (by decide) (by decide) (by decide)

/-- The C2 failing input: the response for user @u:x lists device D1 with a
forged bundle (embedded user id `@evil:x`, failing validation check 1)
followed by device D2 with a well-formed bundle. -/
def invalid_sibling_env : FetchEnv :=
  ⟨fun _ _ _ _ => true, fun _ => [],
   [("@u:x", [("D1", ⟨"@evil:x", "D1", "sk1", "ik1", ""⟩),
              ("D2", ⟨"@u:x", "D2", "sk2", "ik2", ""⟩)])]⟩

def invalid_sibling_store : CryptoStoreState :=
  ⟨["@u:x"], fun _ => [], fun _ => false⟩

/-- C2: evaluation of the code at the failing input.  The forged bundle for
D1 raises a `DeviceValidationError` that `_fetch_keys` does not catch
(device_lists.py line 47 has no try/except around `_validate_device`), so
the whole operation aborts: nothing is returned, `put_devices` is never
called, and the valid sibling D2 — which validates fine on its own, as the
last conjunct shows — is neither stored nor returned, contradicting the
drop-and-continue behaviour the specification requires. -/
theorem C2_invalid_device_aborts_whole_fetch :
    (_fetch_keys invalid_sibling_env invalid_sibling_store ["@u:x"] false).result =
      .error (.validation "mismatching user ID in parameter and keys object") ∧
    (_fetch_keys invalid_sibling_env invalid_sibling_store
      ["@u:x"] false).effects.putDevicesCalls = [] ∧
    (_fetch_keys invalid_sibling_env invalid_sibling_store
      ["@u:x"] false).effects.devicesChangedCalls = [] ∧
    get_devices (_fetch_keys invalid_sibling_env invalid_sibling_store
      ["@u:x"] false).store "@u:x" = [] ∧
    _validate_device (fun _ _ _ _ => true) "@u:x" "D2" ⟨"@u:x", "D2", "sk2", "ik2", ""⟩
      none = .ok ⟨"@u:x", "D2", "ik2", "sk2", TrustState.unset, "D2", false⟩ := by
  refine ⟨?_, ?_, ?_, ?_, ?_⟩ <;> decide

/-- The C7 scenario: device D1 of @u:x is stored with display name
"old name"; a second bulk query returns D1 with unchanged keys and the new
display name "new name"; the store holds an outbound group session for the
shared room !r. -/
def renamed_bundle : DeviceKeys := ⟨"@u:x", "D1", "sk1", "ik1", "new name"⟩

def rename_env : FetchEnv :=
  ⟨fun _ _ _ _ => true, fun _ => ["!r"], [("@u:x", [("D1", renamed_bundle)])]⟩

def rename_store : CryptoStoreState :=
  ⟨["@u:x"],
   fun x => if x = "@u:x"
     then [("D1", ⟨"@u:x", "D1", "ik1", "sk1", TrustState.unset, "old name", false⟩)]
     else [],
   fun r => r = "!r"⟩

/-- C7: in a successful `_fetch_keys` run, the devices-changed signal fires
for a returned user exactly when some returned device was previously absent
from the store or the count of newly-validated devices differs from the
stored count; and in the concrete re-validation scenario with unchanged
keys but a new display name, the new name is stored, no signal fires, and
the shared room's outbound session survives. -/
theorem C7_change_detection :
    (∀ (env : FetchEnv) (st : CryptoStoreState) (users : List UserID)
       (include_untracked : Bool) (u : UserID) (devs : List (DeviceID × DeviceKeys))
       (data : List (UserID × DeviceMap)),
       (env.queryResponse.map Prod.fst).Nodup →
       (u, devs) ∈ env.queryResponse →
       (if include_untracked then users
        else users.filter (fun x => decide (x ∈ st.tracked))) ≠ [] →
       (_fetch_keys env st users include_untracked).result = .ok data →
       (u ∈ (_fetch_keys env st users include_untracked).effects.devicesChangedCalls ↔
         (∃ p ∈ devs, List.lookup p.1 (get_devices st u) = none) ∨
           devs.length ≠ (get_devices st u).length)) ∧
    ((_fetch_keys rename_env rename_store ["@u:x"] false).result =
       .ok [("@u:x", [("D1", ⟨"@u:x", "D1", "ik1", "sk1", TrustState.unset,
         "new name", false⟩)])] ∧
     get_devices (_fetch_keys rename_env rename_store ["@u:x"] false).store "@u:x" =
       [("D1", ⟨"@u:x", "D1", "ik1", "sk1", TrustState.unset, "new name", false⟩)] ∧
     (_fetch_keys rename_env rename_store ["@u:x"] false).effects.devicesChangedCalls
       = [] ∧
     (_fetch_keys rename_env rename_store ["@u:x"] false).store.outbound_sessions "!r"
       = true) := by
  constructor
  · intro env st users inc u devs data hnodup hresp hne hok
    have hlen :
        ¬ (if inc then users else users.filter (fun x => decide (x ∈ st.tracked))).length
          = 0 := by
      intro h0
      exact hne (List.length_eq_zero.mp h0)
    unfold _fetch_keys at hok ⊢
    dsimp only at hok ⊢
    rw [if_neg hlen] at hok ⊢
    exact fetch_keys_loop_changed_iff env.verify env.shared_rooms env.queryResponse
      _ _ _ _ _ hnodup u devs hresp (List.not_mem_nil u) hok
  · refine ⟨?_, ?_, ?_, ?_⟩ <;> decide

/-- C7 witness: the change-detection biconditional applied to the concrete
rename scenario — no new device and an unchanged count, hence no signal. -/
theorem C7_change_detection_witness :
    "@u:x" ∈ (_fetch_keys rename_env rename_store
        ["@u:x"] false).effects.devicesChangedCalls ↔
      (∃ p ∈ [("D1", renamed_bundle)],
        List.lookup p.1 (get_devices rename_store "@u:x") = none) ∨
        [("D1", renamed_bundle)].length ≠ (get_devices rename_store "@u:x").length :=
  C7_change_detection.1 rename_env rename_store ["@u:x"] false "@u:x"
    [("D1", renamed_bundle)]
    [("@u:x", [("D1", ⟨"@u:x", "D1", "ik1", "sk1", TrustState.unset, "new name", false⟩)])]
    (by decide) (by decide) (by decide) (by decide)

end Mautrix
